import Mathlib

/-!
Verification of the persona chatbot (`main.py`): persona transform library
(`make_roast`, `to_shakespeare`, `to_emoji`), prompt assembler and the
orchestration step that appends turns to the conversation log.

Python strings are modelled as `List Char` (`Str`).  `str.lower` / `str.upper`
are modelled with `Char.toLower` / `Char.toUpper` (ASCII, which covers every
constant appearing in the program); `str.replace` with a nonempty pattern is
modelled by `listReplace`; no-argument `str.split` by `pySplit`
(split on whitespace runs, dropping empty pieces); `str.strip` by `pyStrip`;
`str.strip(chars)` by `pyStripChars`; the negative slice `l[-n:]` by
`pyTakeLast`.
-/

abbrev Str := List Char

/-- Python `l[-n:]` for `n = 0` is the whole list, otherwise the last `n`
elements. -/
def pyTakeLast (n : Nat) (l : List α) : List α :=
  if n = 0 then l else l.drop (l.length - n)

/-- Worker for `listReplace`, structurally recursive on a step counter that
starts at the input's length (each step consumes at least one character, so
the counter never runs out before the input does). -/
def listReplaceGo (a b : Str) : Nat → Str → Str
  | _, [] => []
  | 0, t => t
  | fuel + 1, c :: rest =>
    if a ≠ [] ∧ a.isPrefixOf (c :: rest) then
      b ++ listReplaceGo a b fuel (rest.drop (a.length - 1))
    else
      c :: listReplaceGo a b fuel rest

/-- Python `s.replace(a, b)` for a nonempty pattern `a`: scan left to right,
replace each non-overlapping occurrence of `a` by `b`, never rescanning the
inserted `b`.  (The program only ever calls `replace` with nonempty patterns;
for `a = []` this returns the input unchanged.) -/
def listReplace (a b t : Str) : Str :=
  listReplaceGo a b t.length t

/-- Python `s.strip()`: drop leading and trailing whitespace. -/
def pyStrip (l : Str) : Str :=
  ((l.dropWhile Char.isWhitespace).reverse.dropWhile Char.isWhitespace).reverse

/-- Python `s.strip(cs)`: drop the characters of `cs` from both ends. -/
def pyStripChars (cs : Str) (l : Str) : Str :=
  ((l.dropWhile (· ∈ cs)).reverse.dropWhile (· ∈ cs)).reverse

/-- Python `s.split()` (no argument): split on maximal whitespace runs,
dropping empty pieces. -/
def pySplit : Str → List Str
  | [] => []
  | c :: rest =>
    if c.isWhitespace then pySplit rest
    else
      match rest with
      | [] => [[c]]
      | d :: _ =>
        if d.isWhitespace then [c] :: pySplit rest
        else
          match pySplit rest with
          | [] => [[c]]
          | w :: ws => (c :: w) :: ws

/-- Python `s.endswith(('.', '!', '?'))`-style check: the last character is
one of `cs` (false on the empty string). -/
def endsWithAny (cs : Str) (l : Str) : Prop :=
  match l.getLast? with
  | some c => c ∈ cs
  | none => False

instance (cs l : Str) : Decidable (endsWithAny cs l) := by
  unfold endsWithAny
  cases l.getLast? <;> infer_instance

/-! ## Persona transform library -/

/-- `ROAST_TEMPLATES` from `main.py`: each template has exactly one `{u}`
placeholder, modelled as the (prefix, suffix) pair around it. -/
def ROAST_TEMPLATES : List (Str × Str) :=
  [ (("Oh look, ").data,
     (". If I wanted to hear from someone like you, I'd ask my Wi-Fi to drop connection.").data),
    (([] : Str),
     (", you're like a software update. Whenever I see you, I think 'Not now.'").data),
    (("If wit were RAM, ").data,
     (", you'd still be buffering.").data),
    (("You're proof that evolution can go in reverse, ").data,
     (".").data) ]

/-- `make_roast` from `main.py`.  `random.choice(ROAST_TEMPLATES)` is modelled
by the explicit index `i` of the chosen template. -/
def make_roast (i : Fin 4) (user_text : Str) : Str :=
  let t := ROAST_TEMPLATES.get (Fin.cast (by decide) i)
  let short_user :=
    if user_text.length > 30 then user_text.take 30 ++ ("...").data else user_text
  t.1 ++ short_user ++ t.2

/-- `SHAKESPEARE_REPLACEMENTS` from `main.py`, in declaration order. -/
def SHAKESPEARE_REPLACEMENTS : List (Str × Str) :=
  [ ((" you ").data, (" thou ").data),
    ((" are ").data, (" art ").data),
    ((" my ").data, (" mine ").data),
    ((" is ").data, (" isst ").data),
    ((" don't ").data, (" doest not ").data),
    ((" do not ").data, (" doest not ").data),
    ((" hello").data, (" well met").data) ]

/-- `to_shakespeare` from `main.py`: lowercase and pad with boundary spaces,
apply the replacements sequentially in order, strip, capitalize the first
character, and append `", prithee."` unless the text ends in `.`, `!` or `?`. -/
def to_shakespeare (text : Str) : Str :=
  let t0 : Str := ' ' :: (text.map Char.toLower ++ [' '])
  let t1 := SHAKESPEARE_REPLACEMENTS.foldl (fun t p => listReplace p.1 p.2 t) t0
  let t2 := pyStrip t1
  let t3 : Str :=
    match t2 with
    | [] => []
    | c :: r => c.toUpper :: r
  if endsWithAny ['.', '!', '?'] t3 then t3 else t3 ++ (", prithee.").data

/-- `EMOJI_MAP` from `main.py`: word → emoji alias. -/
def EMOJI_MAP : List (Str × Str) :=
  [ (("happy").data, (":smile:").data),
    (("sad").data, (":pensive:").data),
    (("love").data, (":heart:").data),
    (("fire").data, (":fire:").data),
    (("ok").data, (":ok_hand:").data),
    (("yes").data, (":white_check_mark:").data),
    (("no").data, (":x:").data),
    (("cat").data, (":cat:").data),
    (("dog").data, (":dog:").data),
    (("hello").data, (":wave:").data),
    (("thanks").data, (":pray:").data) ]

/-- Python `key in EMOJI_MAP` / `EMOJI_MAP[key]` on the fixed dict, as an
association-list lookup. -/
def emojiLookup (key : Str) : Option Str :=
  (EMOJI_MAP.find? (fun p => p.1 = key)).map (·.2)

/-- The per-token step of `to_emoji`: lowercase, strip `.,!?` from both ends,
look the key up; replace by the resolved glyph if found, keep the original
token otherwise. -/
def emojiToken (emojize : Str → Str) (w : Str) : Str :=
  let key := pyStripChars (".,!?").data (w.map Char.toLower)
  match emojiLookup key with
  | some al => emojize al
  | none => w

/-- `to_emoji` from `main.py`.  The external `emoji.emojize(·, language='alias')`
glyph resolution is out of scope and passed in as the parameter `emojize`. -/
def to_emoji (emojize : Str → Str) (text : Str) : Str :=
  let words := pySplit text
  let out := words.map (emojiToken emojize)
  List.intercalate [' '] out

/-! ## Prompt assembler and orchestration step -/

/-- A history entry `(role, text, time)` as stored in
`st.session_state['history']`. -/
structure Turn where
  role : Str
  text : Str
  time : Str
deriving DecidableEq, Repr

/-- The four selectable personas. -/
inductive Persona where
  | Neutral
  | RoastBot
  | ShakespeareBot
  | EmojiTranslator
deriving DecidableEq, Repr

/-- The persona instruction prefix built in `main.py` (empty for Neutral). -/
def persona_instruction : Persona → Str
  | .RoastBot =>
      ("You are RoastBot. Always answer with a witty, sarcastic roast aimed playfully at the user.\n").data
  | .ShakespeareBot =>
      ("You are ShakespeareBot. Answer in Early Modern English, using poetic and archaic phrasing.\n").data
  | .EmojiTranslator =>
      ("You are Emoji Translator Bot. Concisely translate the user's message into emoji-rich text.\n").data
  | .Neutral => []

/-- Appending the user turn to the history, the first thing the submission
handler does (`st.session_state['history'].append(('user', user_input, timestamp()))`). -/
def submitUser (history : List Turn) (user_input ts : Str) : List Turn :=
  history ++ [⟨("user").data, user_input, ts⟩]

/-- `turns_to_include` from `main.py`: filter to user/bot rows of the
(already updated) history, then take the last `max_history * 2` entries. -/
def turns_to_include (history1 : List Turn) (max_history : Nat) : List Turn :=
  pyTakeLast (max_history * 2)
    (history1.filter (fun t => t.role = ("user").data ∨ t.role = ("bot").data))

/-- One rendered line of the prompt: `"User: <text>\n"` or `"Bot: <text>\n"`. -/
def render_turn (t : Turn) : Str :=
  if t.role = ("user").data then ("User: ").data ++ t.text ++ ['\n']
  else ("Bot: ").data ++ t.text ++ ['\n']

/-- `prompt_parts` from `main.py`: instruction, rendered retained turns, then
the final cue `"User: <new_message>\nBot:"`. -/
def prompt_parts (persona : Persona) (history1 : List Turn) (user_input : Str)
    (max_history : Nat) : List Str :=
  persona_instruction persona ::
    ((turns_to_include history1 max_history).map render_turn ++
      [("User: ").data ++ user_input ++ ("\nBot:").data])

/-- `model_input` from `main.py`: the prompt parts joined with `"\n"`.
`history1` is the history *after* the new user turn was appended. -/
def model_input (persona : Persona) (history1 : List Turn) (user_input : Str)
    (max_history : Nat) : Str :=
  List.intercalate ['\n'] (prompt_parts persona history1 user_input max_history)

/-- `bot_raw` from `main.py`: the outcome of the guarded external model call.
`Except.error e` models the pipeline raising an exception with message `e`;
`Except.ok rs` models success with `generated_responses = rs`, falling back to
the fixed string when the list is empty. -/
def bot_raw (result : Except Str (List Str)) : Str :=
  match result with
  | .error e => ("(model error) ").data ++ e
  | .ok rs => rs.getLast?.getD (("I have nothing to say.").data)

/-- `bot_display` from `main.py`: persona post-processing of the raw model
text.  `i` is the roast template chosen by `random.choice`; `emojize` is the
external glyph resolver. -/
def bot_display (persona : Persona) (user_input raw : Str) (i : Fin 4)
    (emojize : Str → Str) : Str :=
  match persona with
  | .RoastBot => ("**").data ++ make_roast i user_input ++ ("**  \n\n").data ++ raw
  | .ShakespeareBot => to_shakespeare raw
  | .EmojiTranslator => to_emoji emojize user_input
  | .Neutral => raw

/-- One whole submission cycle on the conversation log: append the user turn,
compute the (possibly failed) model response, post-process it for the persona
and append the bot turn. -/
def runSubmission (persona : Persona) (history : List Turn) (user_input : Str)
    (ts1 ts2 : Str) (result : Except Str (List Str)) (i : Fin 4)
    (emojize : Str → Str) : List Turn :=
  let h1 := submitUser history user_input ts1
  h1 ++ [⟨("bot").data, bot_display persona user_input (bot_raw result) i emojize, ts2⟩]

/-- A conversation log holding exactly 10 user/bot pairs (20 turns), with the
i-th pair's texts given by `ut i` and `bt i` (`i = 0, …, 9`). -/
def tenPairLog (ut bt : Nat → Str) (ts : Str) : List Turn :=
  (List.range 10).flatMap fun i => [⟨("user").data, ut i, ts⟩, ⟨("bot").data, bt i, ts⟩]

/-- Modelled from the claim's wording, for comparison with the code: the
lookup key strips only *trailing* punctuation from the fixed set. -/
def emojiTokenTrailingOnly (emojize : Str → Str) (w : Str) : Str :=
  let key := ((w.map Char.toLower).reverse.dropWhile (· ∈ (".,!?").data)).reverse
  match emojiLookup key with
  | some al => emojize al
  | none => w

/-- `to_emoji` as the claim words it: per-token stripping of trailing
punctuation only. -/
def to_emojiTrailingOnly (emojize : Str → Str) (text : Str) : Str :=
  List.intercalate [' '] ((pySplit text).map (emojiTokenTrailingOnly emojize))

/-! ## Helper lemmas -/

theorem pyTakeLast_singleton (n : Nat) (x : α) : pyTakeLast n [x] = [x] := by
  unfold pyTakeLast
  split
  · rfl
  · rename_i h
    have : 1 - n = 0 := by omega
    rw [List.length_singleton, this, List.drop_zero]

theorem intercalate_eq_nil (s : Str) : List.intercalate s [] = [] := rfl

theorem intercalate_singleton (s x : Str) : List.intercalate s [x] = x := by
  simp [List.intercalate]

theorem intercalate_cons_cons (s x y : Str) (t : List Str) :
    List.intercalate s (x :: y :: t) = x ++ s ++ List.intercalate s (y :: t) := by
  simp [List.intercalate, List.intersperse_cons_cons]

theorem pySplit_cons_of_ws (c : Char) (rest : Str) (h : c.isWhitespace = true) :
    pySplit (c :: rest) = pySplit rest := by
  rw [pySplit.eq_def]
  simp [h]

theorem pySplit_head_cons (rest : Str) :
    ∀ c : Char, c.isWhitespace = false →
      ∃ w ws, pySplit (c :: rest) = (c :: w) :: ws := by
  induction rest with
  | nil => intro c hc; exact ⟨[], [], by rw [pySplit.eq_def]; simp [hc]⟩
  | cons d r ih =>
    intro c hc
    by_cases hd : d.isWhitespace = true
    · refine ⟨[], pySplit (d :: r), ?_⟩
      rw [pySplit.eq_def]
      simp [hc, hd]
    · rw [Bool.not_eq_true] at hd
      obtain ⟨w, ws, hw⟩ := ih d hd
      refine ⟨d :: w, ws, ?_⟩
      rw [pySplit.eq_def]
      simp [hc, hd, hw]

/-- A run of non-whitespace characters splits into the single token it is. -/
theorem pySplit_of_noWs : ∀ w : Str, w ≠ [] →
    (∀ c ∈ w, c.isWhitespace = false) → pySplit w = [w] := by
  intro w
  induction w with
  | nil => intro h; exact absurd rfl h
  | cons c w' ih =>
    intro _ hno
    have hc : c.isWhitespace = false := hno c (List.mem_cons_self c w')
    match w', ih with
    | [], _ => rw [pySplit.eq_def]; simp [hc]
    | d :: w'', ih =>
      have hd : d.isWhitespace = false := hno d (by simp)
      have hrec : pySplit (d :: w'') = [d :: w''] := by
        refine ih (by simp) ?_
        intro x hx
        exact hno x (List.mem_cons_of_mem c hx)
      rw [pySplit.eq_def]
      simp [hc, hd, hrec]

/-- A space after a whitespace-free token terminates it cleanly. -/
theorem pySplit_append_space : ∀ w t : Str, w ≠ [] →
    (∀ c ∈ w, c.isWhitespace = false) →
    pySplit (w ++ ' ' :: t) = w :: pySplit t := by
  intro w
  induction w with
  | nil => intro t h; exact absurd rfl h
  | cons c w' ih =>
    intro t _ hno
    have hc : c.isWhitespace = false := hno c (List.mem_cons_self c w')
    match w', ih with
    | [], _ =>
      rw [List.cons_append, List.nil_append, pySplit.eq_def]
      simp only [hc, Bool.false_eq_true, if_false]
      simp [pySplit_cons_of_ws ' ' t (by decide)]
    | d :: w'', ih =>
      have hd : d.isWhitespace = false := hno d (by simp)
      have hrec : pySplit ((d :: w'') ++ ' ' :: t) = (d :: w'') :: pySplit t := by
        refine ih t (by simp) ?_
        intro x hx
        exact hno x (List.mem_cons_of_mem c hx)
      rw [List.cons_append, pySplit.eq_def]
      simp only [List.cons_append] at hrec
      simp [hc, hd, hrec]

/-- Every token produced by `pySplit` is nonempty and whitespace-free. -/
theorem pySplit_mem : ∀ l : Str, ∀ w ∈ pySplit l,
    w ≠ [] ∧ ∀ c ∈ w, c.isWhitespace = false := by
  intro l
  induction l with
  | nil => intro w hw; simp [pySplit] at hw
  | cons c rest ih =>
    intro w hw
    by_cases hc : c.isWhitespace = true
    · exact ih w (by rwa [pySplit_cons_of_ws c rest hc] at hw)
    · rw [Bool.not_eq_true] at hc
      match rest, ih with
      | [], _ =>
        rw [pySplit.eq_def] at hw
        simp [hc] at hw
        subst hw
        exact ⟨by simp, by simp [hc]⟩
      | d :: r2, ih =>
        by_cases hd : d.isWhitespace = true
        · rw [pySplit.eq_def] at hw
          simp [hc, hd] at hw
          rcases hw with hw | hw
          · subst hw; exact ⟨by simp, by simp [hc]⟩
          · exact ih w hw
        · rw [Bool.not_eq_true] at hd
          obtain ⟨w0, ws0, hsplit⟩ := pySplit_head_cons r2 d hd
          rw [pySplit.eq_def] at hw
          simp [hc, hd, hsplit] at hw
          rcases hw with hw | hw
          · subst hw
            have hmem := ih (d :: w0) (by rw [hsplit]; simp)
            refine ⟨by simp, ?_⟩
            intro x hx
            rcases List.mem_cons.mp hx with hx | hx
            · subst hx; exact hc
            · exact hmem.2 x hx
          · exact ih w (by rw [hsplit]; simp [hw])

/-- Splitting is a left inverse of joining with single spaces, on lists of
nonempty whitespace-free tokens. -/
theorem pySplit_intercalate : ∀ ls : List Str,
    (∀ w ∈ ls, w ≠ [] ∧ ∀ c ∈ w, c.isWhitespace = false) →
    pySplit (List.intercalate [' '] ls) = ls := by
  intro ls
  induction ls with
  | nil => intro _; rfl
  | cons w ls' ih =>
    intro hno
    match ls', ih with
    | [], _ =>
      rw [intercalate_singleton]
      exact pySplit_of_noWs w (hno w (by simp)).1 (hno w (by simp)).2
    | w2 :: ls'', ih =>
      rw [intercalate_cons_cons]
      have : w ++ [' '] ++ List.intercalate [' '] (w2 :: ls'') =
          w ++ ' ' :: List.intercalate [' '] (w2 :: ls'') := by
        simp [List.append_assoc]
      rw [this, pySplit_append_space w _ (hno w (by simp)).1 (hno w (by simp)).2,
        ih (fun x hx => hno x (List.mem_cons_of_mem w hx))]

/-! ## Claims -/

/-- C1: `to_shakespeare "hello"` fires the `" hello"` replacement, trims,
uppercases the first character and, since the result ends in no terminal
punctuation, appends `", prithee."`, giving exactly `"Well met, prithee."`. -/
theorem c1_archaize_hello :
    to_shakespeare (("hello").data) = ("Well met, prithee.").data := by decide

/-- C7: `to_shakespeare` does not append `", prithee."` when the transformed
text already ends in terminal punctuation: `to_shakespeare "you are great!"`
is exactly `"Thou art great!"`. -/
theorem c7_archaize_punctuated :
    to_shakespeare (("you are great!").data) = ("Thou art great!").data := by decide

/-- C6: the persona transforms are total by construction in this embedding,
and on empty input they return safe defaults rather than failing:
`to_shakespeare ""` is the suffix-only `", prithee."`, `to_emoji` of the
empty string is empty for any glyph resolver, and `make_roast` of the empty
string is a bare template fill. -/
theorem c6_transforms_total_on_empty :
    to_shakespeare [] = (", prithee.").data ∧
      (∀ emojize : Str → Str, to_emoji emojize [] = []) ∧
      (∀ i : Fin 4, ∃ t ∈ ROAST_TEMPLATES, make_roast i [] = t.1 ++ t.2) := by
  refine ⟨by decide, fun emojize => rfl, fun i => ?_⟩
  refine ⟨ROAST_TEMPLATES.get (Fin.cast (by decide) i), List.get_mem _ _ _, ?_⟩
  simp [make_roast]

/-- C4: the bot text appended to the log is determined by the persona:
RoastBot prefixes a roast fill of the user message ahead of the raw model
text, ShakespeareBot applies `to_shakespeare` to the raw model text,
Emoji Translator applies `to_emoji` to the original user message (the raw
model output does not occur in it), and Neutral passes the raw text through
unchanged. -/
theorem c4_bot_display_by_persona (user_input raw : Str) (i : Fin 4)
    (emojize : Str → Str) :
    bot_display .RoastBot user_input raw i emojize =
        ("**").data ++ make_roast i user_input ++ ("**  \n\n").data ++ raw ∧
      bot_display .ShakespeareBot user_input raw i emojize = to_shakespeare raw ∧
      bot_display .EmojiTranslator user_input raw i emojize = to_emoji emojize user_input ∧
      bot_display .Neutral user_input raw i emojize = raw :=
  ⟨rfl, rfl, rfl, rfl⟩

/-- C4 witness at concrete inputs. -/
theorem c4_bot_display_by_persona_witness :
    bot_display .Neutral (("hi").data) (("ok").data) 0 id = ("ok").data :=
  (c4_bot_display_by_persona (("hi").data) (("ok").data) 0 id).2.2.2

/-- C9: `make_roast` always yields one of the fixed templates with its
placeholder substituted by the user text truncated to its first 30
characters, the `"..."` ellipsis being appended exactly when the text is
longer than 30 characters. -/
theorem c9_make_roast_template_fill (i : Fin 4) (x : Str) :
    ∃ t ∈ ROAST_TEMPLATES,
      make_roast i x =
        t.1 ++ (if x.length > 30 then x.take 30 ++ ("...").data else x) ++ t.2 :=
  ⟨ROAST_TEMPLATES.get (Fin.cast (by decide) i), List.get_mem _ _ _, rfl⟩

/-- C10: when the model call succeeds with an empty `generated_responses`
list, the raw bot text is the fixed fallback `"I have nothing to say."`
(before any persona transform), and the log still gains exactly one bot
turn. -/
theorem c10_empty_responses_fallback (persona : Persona) (history : List Turn)
    (u ts1 ts2 : Str) (i : Fin 4) (emojize : Str → Str) :
    bot_raw (Except.ok []) = ("I have nothing to say.").data ∧
      runSubmission persona history u ts1 ts2 (Except.ok []) i emojize =
        submitUser history u ts1 ++
          [⟨("bot").data,
            bot_display persona u (("I have nothing to say.").data) i emojize, ts2⟩] ∧
      (runSubmission persona history u ts1 ts2 (Except.ok []) i emojize).countP
          (fun t => t.role = ("bot").data) =
        history.countP (fun t => t.role = ("bot").data) + 1 := by
  refine ⟨rfl, rfl, ?_⟩
  simp [runSubmission, submitUser, List.countP_append, List.countP_cons]

/-- C5 as stated is false: on a model failure the persona transform is still
applied to the error text before it is appended, so with the Emoji Translator
persona the appended bot text is `to_emoji` of the user message and the
stringified exception does not appear at all. -/
theorem c5_counterexample :
    ((runSubmission .EmojiTranslator [] (("hi").data) [] [] (Except.error (("boom").data))
          0 id).getLast?).map Turn.text ≠ some (("(model error) boom").data) := by decide

/-- C5 amended: a model exception is never propagated: the raw bot text is the
fixed prefix `"(model error) "` plus the stringified exception, the persona
transform is applied to it like to any normal response, exactly one bot turn
is appended (the bot-entry count grows by one), and for the Neutral persona
the appended text is exactly the prefix plus the exception text. -/
theorem c5_amended_error_turn (persona : Persona) (history : List Turn)
    (u ts1 ts2 e : Str) (i : Fin 4) (emojize : Str → Str) :
    bot_raw (Except.error e) = ("(model error) ").data ++ e ∧
      runSubmission persona history u ts1 ts2 (Except.error e) i emojize =
        submitUser history u ts1 ++
          [⟨("bot").data,
            bot_display persona u (("(model error) ").data ++ e) i emojize, ts2⟩] ∧
      (runSubmission persona history u ts1 ts2 (Except.error e) i emojize).countP
          (fun t => t.role = ("bot").data) =
        history.countP (fun t => t.role = ("bot").data) + 1 ∧
      bot_display .Neutral u (("(model error) ").data ++ e) i emojize =
        ("(model error) ").data ++ e := by
  refine ⟨rfl, rfl, ?_, rfl⟩
  simp [runSubmission, submitUser, List.countP_append, List.countP_cons]

/-- C2 as stated is false: the submission handler appends the new user turn to
the history *before* windowing, so the new message also shows up as a rendered
history line, and each rendered line carries its own trailing newline before
the join. -/
theorem c2_counterexample :
    model_input .Neutral (submitUser [] (("hi").data) (("t").data)) (("hi").data) 6 ≠
      ("\nUser: hi\nBot:").data := by decide

/-- C2 amended: with an empty log before the submission, persona Neutral and
new message `"hi"`, the assembled prompt is `"\nUser: hi\n\nUser: hi\nBot:"`
(for every `max_history` setting): the new user message appears once as a
rendered history line — it was appended to the log before windowing — and
once in the final cue. -/
theorem c2_amended_empty_log_prompt (max_history : Nat) (ts : Str) :
    model_input .Neutral (submitUser [] (("hi").data) ts) (("hi").data) max_history =
      ("\nUser: hi\n\nUser: hi\nBot:").data := by
  have h1 : turns_to_include (submitUser [] (("hi").data) ts) max_history =
      [⟨("user").data, ("hi").data, ts⟩] := by
    unfold turns_to_include submitUser
    rw [List.nil_append, List.filter_cons_of_pos (by rfl), List.filter_nil,
      pyTakeLast_singleton]
  unfold model_input prompt_parts
  rw [h1]
  rfl

/-- C3 as stated is false: with 10 pairs in the log and `max_history = 2`, the
rendered lines before the final cue are not the renderings of the last 4
entries of the pre-submission log, because the new user message was appended
before the window was taken. -/
theorem c3_counterexample :
    (turns_to_include
          (submitUser (tenPairLog (fun i => ['u', Char.ofNat (48 + i)])
            (fun i => ['b', Char.ofNat (48 + i)]) []) ['n'] []) 2).map render_turn ≠
      (pyTakeLast 4 (tenPairLog (fun i => ['u', Char.ofNat (48 + i)])
        (fun i => ['b', Char.ofNat (48 + i)]) [])).map render_turn := by decide

/-- C3 amended: with 10 pairs in the log and `max_history = 2`, the window of
`max_history * 2 = 4` entries is taken *after* the new user turn is appended,
so the rendered lines before the final cue are the last **3** entries of the
pre-submission log (the 9th pair's bot turn and the 10th pair) followed by a
`"User:"` rendering of the new message. -/
theorem c3_amended_window (ut bt : Nat → Str) (ts ts' m : Str) :
    (turns_to_include (submitUser (tenPairLog ut bt ts) m ts') 2).map render_turn =
      [("Bot: ").data ++ bt 8 ++ ['\n'],
        ("User: ").data ++ ut 9 ++ ['\n'],
        ("Bot: ").data ++ bt 9 ++ ['\n'],
        ("User: ").data ++ m ++ ['\n']] := rfl

/-- C8 as stated is false: the code's lookup key strips the punctuation set
from *both* ends of the token (Python `strip`), not only trailing, so the
token `"!happy"` is mapped to a glyph instead of being preserved unchanged
as the trailing-only reading demands. -/
theorem c8_counterexample :
    to_emoji id (("!happy").data) = ((":smile:").data) ∧
      to_emojiTrailingOnly id (("!happy").data) = (("!happy").data) ∧
      to_emoji id (("!happy").data) ≠ to_emojiTrailingOnly id (("!happy").data) := by
  decide

/-- C8 amended: `to_emoji` splits on whitespace and, per token, strips
leading **and** trailing punctuation from the fixed set `.,!?` and lowercases
for the lookup; a mapped token is replaced by its resolved glyph, an unmapped
token is preserved unchanged, tokens are rejoined with single spaces, and —
provided the glyph resolver returns nonempty whitespace-free glyphs on the
map's aliases — the output token count equals the input token count. -/
theorem c8_amended_tokenization (emojize : Str → Str) (text : Str)
    (hglyph : ∀ p ∈ EMOJI_MAP, emojize p.2 ≠ [] ∧
      ∀ c ∈ emojize p.2, c.isWhitespace = false) :
    pySplit (to_emoji emojize text) = (pySplit text).map (emojiToken emojize) ∧
      (pySplit (to_emoji emojize text)).length = (pySplit text).length ∧
      ∀ w ∈ pySplit text,
        emojiToken emojize w =
          match emojiLookup (pyStripChars ((".,!?").data) (w.map Char.toLower)) with
          | some al => emojize al
          | none => w := by
  have hmain : pySplit (to_emoji emojize text) = (pySplit text).map (emojiToken emojize) := by
    show pySplit (List.intercalate [' '] ((pySplit text).map (emojiToken emojize))) = _
    apply pySplit_intercalate
    intro w hw
    obtain ⟨w0, hw0, rfl⟩ := List.mem_map.mp hw
    have hprops := pySplit_mem text w0 hw0
    unfold emojiToken
    cases hfind : emojiLookup (pyStripChars ((".,!?").data) (w0.map Char.toLower)) with
    | none => simpa [hfind] using hprops
    | some al =>
      obtain ⟨p, hp, hpe⟩ : ∃ p ∈ EMOJI_MAP, p.2 = al := by
        unfold emojiLookup at hfind
        obtain ⟨p, hfp, hpe⟩ := Option.map_eq_some'.mp hfind
        exact ⟨p, List.mem_of_find?_eq_some hfp, hpe⟩
      subst hpe
      simpa [hfind] using hglyph p hp
  exact ⟨hmain, by rw [hmain, List.length_map], fun w hw => rfl⟩

/-- C8 witness: the identity glyph resolver satisfies the hypothesis, and on
`"I feel happy today"` only the token `"happy"` is mapped while the token
count is preserved. -/
theorem c8_amended_tokenization_witness :
    (∀ p ∈ EMOJI_MAP, (id p.2 : Str) ≠ [] ∧
        ∀ c ∈ (id p.2 : Str), c.isWhitespace = false) ∧
      pySplit (to_emoji id (("I feel happy today").data)) =
        (pySplit (("I feel happy today").data)).map (emojiToken id) ∧
      (pySplit (to_emoji id (("I feel happy today").data))).length =
        (pySplit (("I feel happy today").data)).length :=
  ⟨by decide,
    (c8_amended_tokenization id (("I feel happy today").data) (by decide)).1,
    (c8_amended_tokenization id (("I feel happy today").data) (by decide)).2.1⟩
